import Mathlib

set_option autoImplicit false

/-!
Shallow embedding of the go-seele p2p core (src/p2p/peer.go, src/p2p/server.go)
and proofs about the properties its design document states.

Machine integers are modelled as `Nat` with an explicit `% 2^w` wherever the Go
code truncates; byte streams are `List Nat` of values below 256; fallible steps
(socket I/O, the external codec `common.Serialize` / `common.Deserialize`, the
discovery snapshot) are passed in as explicit `Option`-valued oracle inputs, so
`setupConn` and the peer/server loops become pure functions of those inputs.
-/

namespace P2P

/-! ## Frames (peer.go: msg / Message, sendRawMsg, recvRawMsg)

The Go `msg` embeds `Message`; flattened here. The runtime metadata fields
`ReceivedAt` (wall-clock time) and `CurPeer` (back pointer) carry no wire
content and are omitted from the frame record. -/

/-- One on-wire frame: header fields `size` (uint32), `protoCode` (uint16),
`msgCode` (uint16) and the payload bytes. -/
structure Msg where
  protoCode : Nat
  msgCode : Nat
  size : Nat
  payload : List Nat
  deriving Repr, DecidableEq

/-- binary.BigEndian.PutUint16: two bytes, most significant first. -/
def putUint16 (v : Nat) : List Nat :=
  [v / 256 % 256, v % 256]

/-- binary.BigEndian.PutUint32: four bytes, most significant first. -/
def putUint32 (v : Nat) : List Nat :=
  [v / 16777216 % 256, v / 65536 % 256, v / 256 % 256, v % 256]

/-- binary.BigEndian.Uint16 on two bytes. -/
def beUint16 (b0 b1 : Nat) : Nat := b0 * 256 + b1

/-- binary.BigEndian.Uint32 on four bytes. -/
def beUint32 (b0 b1 b2 b3 : Nat) : Nat :=
  ((b0 * 256 + b1) * 256 + b2) * 256 + b3

/-- Peer.sendRawMsg (peer.go 168-187): writes the 8-byte header
`[size:u32][protoCode:u16][msgCode:u16]`, all big-endian, then the payload.
The `% 2^32` / `% 2^16` reflect the uint32/uint16 typing of the Go fields. -/
def sendRawMsg (m : Msg) : List Nat :=
  putUint32 (m.size % 4294967296) ++ putUint16 (m.protoCode % 65536) ++
    putUint16 (m.msgCode % 65536) ++ m.payload

/-- Peer.recvRawMsg (peer.go 189-213): reads exactly 8 header bytes with
io.ReadFull, parses size/protoCode/msgCode big-endian, then reads exactly
`size` payload bytes. A short stream is an io.ReadFull error, hence `none`.
Returns the frame and the unconsumed remainder of the stream. -/
def recvRawMsg : List Nat → Option (Msg × List Nat)
  | b0 :: b1 :: b2 :: b3 :: b4 :: b5 :: b6 :: b7 :: rest =>
    let sz := beUint32 b0 b1 b2 b3
    if sz ≤ rest.length then
      some ({ protoCode := beUint16 b4 b5, msgCode := beUint16 b6 b7,
              size := sz, payload := rest.take sz }, rest.drop sz)
    else none
  | _ => none

theorem beUint32_putUint32 (v : Nat) :
    beUint32 (v / 16777216 % 256) (v / 65536 % 256) (v / 256 % 256) (v % 256)
      = v % 4294967296 := by
  simp only [beUint32]
  omega

theorem beUint16_putUint16 (v : Nat) :
    beUint16 (v / 256 % 256) (v % 256) = v % 65536 := by
  simp only [beUint16]
  omega

/-- C4: a frame whose `size` field equals its payload length (and whose header
fields fit their machine widths, as the Go uint32/uint16 typing enforces)
round-trips: `recvRawMsg` applied to the bytes produced by `sendRawMsg`,
followed by any further stream content, returns an equal frame — same size,
protoCode, msgCode and identical payload bytes — and leaves the rest of the
stream untouched. All header fields are big-endian in the 8-byte header by
the definitions of `sendRawMsg` and `recvRawMsg`. -/
theorem sendRawMsg_recvRawMsg_roundtrip (m : Msg) (rest : List Nat)
    (hsz : m.size = m.payload.length)
    (h32 : m.size < 4294967296) (hp : m.protoCode < 65536)
    (hm : m.msgCode < 65536) :
    recvRawMsg (sendRawMsg m ++ rest) = some (m, rest) := by
  obtain ⟨pc, mc, sz, pl⟩ := m
  simp only at hsz h32 hp hm
  simp only [sendRawMsg, putUint32, putUint16, List.cons_append, List.nil_append,
    recvRawMsg, beUint32_putUint32, beUint16_putUint16]
  have e1 : sz % 4294967296 % 4294967296 = sz := by omega
  have e2 : pc % 65536 % 65536 = pc := by omega
  have e3 : mc % 65536 % 65536 = mc := by omega
  rw [e1, e2, e3]
  subst hsz
  simp [List.take_left, List.drop_left]

/-- Witness for `sendRawMsg_recvRawMsg_roundtrip` at a concrete frame,
including the `size = 0` boundary case with empty payload. -/
theorem sendRawMsg_recvRawMsg_roundtrip_witness :
    recvRawMsg (sendRawMsg ⟨1, 3, 0, []⟩ ++ [9, 9]) = some (⟨1, 3, 0, []⟩, [9, 9]) :=
  sendRawMsg_recvRawMsg_roundtrip ⟨1, 3, 0, []⟩ [9, 9] rfl (by decide) (by decide) (by decide)

/-! ## Capabilities and the handshake code table (server.go setupConn) -/

/-- Capability: a (name, version) pair advertised by one sub-protocol. -/
structure Cap where
  name : String
  version : Nat
  deriving Repr, DecidableEq

/-- Modelled from the spec: the method `Cap.String` lives in a repository file
outside src/ (only its call sites are in src/p2p/server.go). The spec calls
its value the "capability string" of the (name, version) pair; rendered here
as name, separator, version. -/
def capString (c : Cap) : String := c.name ++ "/" ++ toString c.version

/-- Control channel protocol code: peer.go's handle() treats protoCode 1 as
the control channel (`if msgRecv.protoCode != 1`), and the spec reserves
code 1 for control. -/
def ctlProtoCode : Nat := 1

/-- Modelled from the spec: the constant `baseProtoCode` is declared outside
src/. The spec's wire format fixes protoCode 1 = control and 2..N =
negotiated, so the fixed base code for sub-protocols is 2. -/
def baseProtoCode : Nat := 2

/-- Disconnect reason: node already has a connection (peer.go 23). -/
def discAlreadyConnected : Nat := 10

/-- Disconnect reason: server quitting (peer.go 24). -/
def discServerQuit : Nat := 11

/-- Assign consecutive protocol codes to a capability list, starting at
`code`: the body of the loop at server.go 323-331, which fills
`capMap[cap.String()] = protoCode` and increments `protoCode`. -/
def buildCapMapFrom (code : Nat) : List Cap → List (String × Nat)
  | [] => []
  | c :: cs => (capString c, code) :: buildCapMapFrom (code + 1) cs

/-- The per-connection `capMap` as setupConn builds it (server.go 319-331):
the loop ranges over the server's own registered protocols in registration
order, starting at `baseProtoCode`. The capabilities received from the peer
are bound on line 319 (`peerCaps`) but never consulted — the TODO on line
320 records the unimplemented merge/ordering. -/
def setupTables (localCaps : List Cap) (_peerCaps : List Cap) : List (String × Nat) :=
  buildCapMapFrom baseProtoCode localCaps

/-- Lexicographic order on character lists, comparing code points. -/
def charListLe : List Char → List Char → Bool
  | [], _ => true
  | _ :: _, [] => false
  | a :: as, b :: bs =>
    if a.toNat < b.toNat then true
    else if b.toNat < a.toNat then false
    else charListLe as bs

/-- Lexicographic order on capability strings. -/
def capLe (a b : Cap) : Bool := charListLe (capString a).data (capString b).data

def insertByCapLe (c : Cap) : List Cap → List Cap
  | [] => [c]
  | d :: ds => if capLe c d then c :: d :: ds else d :: insertByCapLe c ds

/-- Insertion sort of capabilities by capability string. -/
def sortByCapLe : List Cap → List Cap
  | [] => []
  | c :: cs => insertByCapLe c (sortByCapLe cs)

/-- Modelled from the spec: the table the handshake is required to compute —
the intersection of the two advertised capability sets by (name, version),
sorted lexicographically by capability string, with codes assigned from the
fixed base code in that order. -/
def specCodeTable (localCaps peerCaps : List Cap) : List (String × Nat) :=
  buildCapMapFrom baseProtoCode
    (sortByCapLe (localCaps.filter (fun c => peerCaps.contains c)))

def capChain : Cap := ⟨"chain", 1⟩
def capTx : Cap := ⟨"tx", 1⟩
def capLight : Cap := ⟨"light", 1⟩

/-- C1: refuted on the code — with local capabilities chain/1, tx/1 and peer
capabilities tx/1, light/1 (the spec's own capability-intersection
scenario), setupConn's table keeps chain/1 and assigns (chain/1 ↦ 2,
tx/1 ↦ 3), while the required intersection table is (tx/1 ↦ 2) alone: the
code builds the table from the local protocol list in registration order
and ignores the peer's capability set, so two endpoints with different
local lists derive different tables. -/
theorem setupTables_ignores_peerCaps :
    setupTables [capChain, capTx] [capTx, capLight]
        = [(capString capChain, 2), (capString capTx, 3)] ∧
    specCodeTable [capChain, capTx] [capTx, capLight] = [(capString capTx, 2)] ∧
    setupTables [capChain, capTx] [capTx, capLight]
        ≠ specCodeTable [capChain, capTx] [capTx, capLight] := by
  refine ⟨rfl, ?_, by decide⟩
  decide

/-! ## setupConn outcome (server.go 267-356)

The fallible external steps are oracle inputs: `serRes` is the result of
`common.Serialize(handshakeMsg)` (line 297), `recvRes` the result of
`peer.recvRawMsg()` (line 307), `deser` the behaviour of
`common.Deserialize` on a payload (line 314), `snapshot` the value of
`srv.kadDB.GetCopy()` (line 335). The result of `peer.sendRawMsg(wrapMsg)`
(line 305) is discarded by the code, so it does not appear: a send failure
cannot alter control flow. -/

/-- Discovery node record: only the ID matters to setupConn's lookup. -/
structure Node where
  id : Nat
  deriving Repr, DecidableEq

/-- Payload of the protocol handshake: capabilities, node ID, nonce. -/
structure ProtoHandShake where
  caps : List Cap
  nodeID : Nat
  nounce : Nat
  deriving Repr, DecidableEq

inductive HSError
  | serializeFail
  | recvFail
  | deserializeFail
  | unknownPeer
  deriving Repr, DecidableEq

inductive SetupResult
  | failed (e : HSError)
  | admitted (n : Node)
  deriving Repr, DecidableEq

/-- Outcome of one setupConn call: whether `fd.Close()` ran before returning,
and whether the routine failed or went on to admission (the `go func` at
server.go 348 that posts the peer on `srv.addpeer` with node `n`). -/
structure SetupOutcome where
  connClosed : Bool
  result : SetupResult
  deriving Repr, DecidableEq

def inboundConn : Nat := 1
def outboundConn : Nat := 2

/-- Server.setupConn (server.go 267-356). `_dialDest` is stored into the
fresh peer on line 276 but the admission node is taken from the local
variable `peerNode`, which only the `flags == inboundConn` branch (lines
334-342) ever assigns; the nil check on line 343 returns without closing
the connection. -/
def setupConn (flags : Nat) (_dialDest : Option Node)
    (serRes : Option (List Nat)) (recvRes : Option Msg)
    (deser : List Nat → Option ProtoHandShake)
    (snapshot : List Node) : SetupOutcome :=
  match serRes with
  | none => ⟨true, .failed .serializeFail⟩
  | some _buffer =>
    match recvRes with
    | none => ⟨true, .failed .recvFail⟩
    | some recvWrapMsg =>
      match deser recvWrapMsg.payload with
      | none => ⟨true, .failed .deserializeFail⟩
      | some recvMsg =>
        let peerNode : Option Node :=
          if flags = inboundConn then
            snapshot.find? (fun node => node.id == recvMsg.nodeID)
          else none
        match peerNode with
        | none => ⟨false, .failed .unknownPeer⟩
        | some n => ⟨false, .admitted n⟩

/-- Example deserializer oracle used in witnesses: every payload decodes to a
handshake naming node 7. -/
def deserAlways7 : List Nat → Option ProtoHandShake :=
  fun _ => some ⟨[], 7, 5⟩

/-- C2: refuted on the code — on an outbound connection the local variable
`peerNode` is assigned only inside the `flags == inboundConn` branch, so
even when the dial destination is known and every frame-exchange step
succeeds, setupConn reaches the nil check with `peerNode = nil` and fails
with the unknown-peer error; the connection never proceeds to admission. -/
theorem setupConn_outbound_always_unknownPeer
    (dialDest : Option Node) (buf : List Nat) (fr : Msg)
    (deser : List Nat → Option ProtoHandShake) (snapshot : List Node)
    (hs : ProtoHandShake) (hd : deser fr.payload = some hs) :
    setupConn outboundConn dialDest (some buf) (some fr) deser snapshot
      = ⟨false, .failed .unknownPeer⟩ := by
  simp [setupConn, hd, outboundConn, inboundConn]

/-- Witness for `setupConn_outbound_always_unknownPeer`: the dial destination
is node 7, the received handshake names node 7, and node 7 is even present
in the discovery snapshot — still the outbound handshake fails with the
unknown-peer error. -/
theorem setupConn_outbound_always_unknownPeer_witness :
    setupConn outboundConn (some ⟨7⟩) (some [0]) (some ⟨1, 0, 0, []⟩)
      deserAlways7 [⟨7⟩] = ⟨false, .failed .unknownPeer⟩ :=
  setupConn_outbound_always_unknownPeer (some ⟨7⟩) [0] ⟨1, 0, 0, []⟩
    deserAlways7 [⟨7⟩] ⟨[], 7, 5⟩ rfl

/-- C3: refuted on the code for the unknown-NodeID path — when an inbound
handshake deserializes to a NodeID absent from the discovery snapshot,
setupConn returns the unknown-peer failure via the nil check at server.go
343-345, which, unlike the serialize/receive/deserialize failure paths,
returns without calling `fd.Close()`: the handshake fails yet the
connection is left open. (No peer is admitted on this path.) -/
theorem setupConn_unknownPeer_leaves_conn_open
    (dialDest : Option Node) (buf : List Nat) (fr : Msg)
    (deser : List Nat → Option ProtoHandShake) (snapshot : List Node)
    (hs : ProtoHandShake) (hd : deser fr.payload = some hs)
    (hn : snapshot.find? (fun node => node.id == hs.nodeID) = none) :
    setupConn inboundConn dialDest (some buf) (some fr) deser snapshot
      = ⟨false, .failed .unknownPeer⟩ := by
  simp [setupConn, hd, hn]

/-- Witness for `setupConn_unknownPeer_leaves_conn_open`: inbound connection,
handshake names node 7, snapshot holds only node 8; the outcome is the
unknown-peer failure with `connClosed = false`. -/
theorem setupConn_unknownPeer_leaves_conn_open_witness :
    setupConn inboundConn none (some [0]) (some ⟨1, 0, 0, []⟩)
      deserAlways7 [⟨8⟩] = ⟨false, .failed .unknownPeer⟩ :=
  setupConn_unknownPeer_leaves_conn_open none [0] ⟨1, 0, 0, []⟩
    deserAlways7 [⟨8⟩] ⟨[], 7, 5⟩ rfl rfl

/-- C9 counterexample: a received frame with protoCode = 5 and msgCode = 9 —
not a control-handshake frame (`ctlProtoCode = 1`) — is not rejected: the
inbound handshake deserializes its payload, finds node 7 in the snapshot
and proceeds to admission. -/
theorem setupConn_accepts_noncontrol_frame :
    (5 : Nat) ≠ ctlProtoCode ∧
    setupConn inboundConn none (some [0]) (some ⟨5, 9, 0, []⟩)
      deserAlways7 [⟨7⟩] = ⟨false, .admitted ⟨7⟩⟩ := by
  exact ⟨by decide, rfl⟩

/-- C9 amended: setupConn never inspects the received frame's protoCode or
msgCode — its outcome depends only on the frame's payload, so any frame
whose payload deserializes as a handshake is accepted and rejection happens
only on a deserialization failure (or the later node lookup). -/
theorem setupConn_ignores_frame_codes
    (flags : Nat) (dialDest : Option Node) (serRes : Option (List Nat))
    (deser : List Nat → Option ProtoHandShake) (snapshot : List Node)
    (f g : Msg) (hpl : f.payload = g.payload) :
    setupConn flags dialDest serRes (some f) deser snapshot
      = setupConn flags dialDest serRes (some g) deser snapshot := by
  cases serRes with
  | none => rfl
  | some buf => simp [setupConn, hpl]

/-- Witness for `setupConn_ignores_frame_codes`: two frames sharing a payload
but with different protoCode/msgCode produce the same outcome. -/
theorem setupConn_ignores_frame_codes_witness :
    setupConn inboundConn none (some [0]) (some (⟨5, 9, 0, []⟩ : Msg))
        deserAlways7 [⟨7⟩]
      = setupConn inboundConn none (some [0]) (some (⟨1, 0, 0, []⟩ : Msg))
        deserAlways7 [⟨7⟩] :=
  setupConn_ignores_frame_codes inboundConn none (some [0]) deserAlways7
    [⟨7⟩] ⟨5, 9, 0, []⟩ ⟨1, 0, 0, []⟩ rfl

/-! ## Server reconciliation loop (server.go Server.run, lines 127-170)

A peer handle carries the Go pointer identity (`pid`) of the `*Peer` and
the NodeID `p.node.ID` it was admitted under; the Go map
`peers map[common.Address]*Peer` is an association list keyed by NodeID,
mutated only by the loop. -/

/-- A `*Peer` as the reconciliation loop sees it: pointer identity plus the
NodeID of its node record. -/
structure PeerH where
  pid : Nat
  nodeId : Nat
  deriving Repr, DecidableEq

/-- The server's peer map, NodeID keys. -/
abbrev PeerMap := List (Nat × PeerH)

/-- Go map lookup `peers[k]`. -/
def lookupPeer (m : PeerMap) (k : Nat) : Option PeerH :=
  (m.find? (fun e => e.1 == k)).map Prod.snd

/-- Go map insert of a key known to be absent: `peers[k] = v`. -/
def insertPeer (m : PeerMap) (k : Nat) (v : PeerH) : PeerMap :=
  m ++ [(k, v)]

/-- Go `delete(peers, k)`. -/
def deletePeer (m : PeerMap) (k : Nat) : PeerMap :=
  m.filter (fun e => e.1 != k)

/-- Events arriving on the loop's `srv.addpeer` / `srv.delpeer` channels. -/
inductive SrvEvent
  | addpeer (c : PeerH)
  | delpeer (pd : PeerH)
  deriving Repr, DecidableEq

/-- Side effects the loop issues: `p.Disconnect(reason)` calls. -/
inductive SrvAction
  | disconnect (p : PeerH) (reason : Nat)
  deriving Repr, DecidableEq

/-- One iteration of the select in Server.run for a peer event (server.go
141-158): an addpeer whose NodeID is mapped gets
`Disconnect(discAlreadyConnected)` and is dropped, else it is inserted; a
delpeer removes the entry only when the mapped instance equals the event's
instance. -/
def runStep (peers : PeerMap) : SrvEvent → PeerMap × List SrvAction
  | .addpeer c =>
    match lookupPeer peers c.nodeId with
    | some _ => (peers, [.disconnect c discAlreadyConnected])
    | none => (insertPeer peers c.nodeId c, [])
  | .delpeer pd =>
    match lookupPeer peers pd.nodeId with
    | some curPeer =>
      if curPeer = pd then (deletePeer peers pd.nodeId, []) else (peers, [])
    | none => (peers, [])

/-- The peer map after the loop processed a sequence of events, starting from
`peers`. Server.Start initializes the map empty (server.go 98). -/
def runEvents (peers : PeerMap) : List SrvEvent → PeerMap
  | [] => peers
  | e :: es => runEvents (runStep peers e).1 es

/-- A peer map is well-formed when its NodeID keys are pairwise distinct. -/
def keysNodup (m : PeerMap) : Prop := (m.map Prod.fst).Nodup

theorem lookupPeer_eq_none_iff (m : PeerMap) (k : Nat) :
    lookupPeer m k = none ↔ k ∉ m.map Prod.fst := by
  induction m with
  | nil => simp [lookupPeer]
  | cons e es ih =>
    simp only [lookupPeer] at ih ⊢
    by_cases hk : e.1 = k
    · rw [List.find?_cons_of_pos _ (by simpa using hk)]
      simp [hk]
    · rw [List.find?_cons_of_neg _ (by simpa using hk)]
      rw [ih]
      simp only [List.map_cons, List.mem_cons]
      constructor
      · intro h hmem
        rcases hmem with h1 | h2
        · exact hk h1.symm
        · exact h h2
      · intro h hmem
        exact h (Or.inr hmem)

theorem keysNodup_runStep (peers : PeerMap) (e : SrvEvent)
    (h : keysNodup peers) : keysNodup (runStep peers e).1 := by
  cases e with
  | addpeer c =>
    simp only [runStep]
    cases hl : lookupPeer peers c.nodeId with
    | some p => exact h
    | none =>
      have hk : c.nodeId ∉ peers.map Prod.fst :=
        (lookupPeer_eq_none_iff peers c.nodeId).mp hl
      simp only [keysNodup, insertPeer, List.map_append, List.map_cons,
        List.map_nil]
      rw [List.nodup_append]
      exact ⟨h, List.nodup_singleton _, by simpa using fun hx => hk hx⟩
  | delpeer pd =>
    simp only [runStep]
    cases hl : lookupPeer peers pd.nodeId with
    | some curPeer =>
      by_cases hc : curPeer = pd
      · simp only [hc, if_pos rfl]
        exact (List.Sublist.map Prod.fst (List.filter_sublist peers)).nodup h
      · simp only [if_neg hc]
        exact h
    | none => exact h

theorem keysNodup_runEvents (peers : PeerMap) (evs : List SrvEvent)
    (h : keysNodup peers) : keysNodup (runEvents peers evs) := by
  induction evs generalizing peers with
  | nil => exact h
  | cons e es ih => exact ih _ (keysNodup_runStep peers e h)

/-- C5: the reconciliation loop keeps the peer map free of duplicate NodeIDs —
starting from the empty map of Server.Start, after any sequence of
addpeer/delpeer events the keys are pairwise distinct; an addpeer whose
NodeID is already mapped leaves the map unchanged and disconnects the new
peer with reason discAlreadyConnected = 10, and an addpeer whose NodeID is
unmapped inserts it with no disconnect. -/
theorem run_no_duplicate_nodeIds :
    (∀ evs : List SrvEvent, keysNodup (runEvents [] evs)) ∧
    (∀ (peers : PeerMap) (c : PeerH) (p : PeerH),
        lookupPeer peers c.nodeId = some p →
        runStep peers (.addpeer c) = (peers, [.disconnect c discAlreadyConnected])) ∧
    (∀ (peers : PeerMap) (c : PeerH),
        lookupPeer peers c.nodeId = none →
        runStep peers (.addpeer c) = (insertPeer peers c.nodeId c, [])) ∧
    discAlreadyConnected = 10 := by
  refine ⟨fun evs => keysNodup_runEvents [] evs (by simp [keysNodup]), ?_, ?_, rfl⟩
  · intro peers c p hl
    simp [runStep, hl]
  · intro peers c hl
    simp [runStep, hl]

/-- Witness for `run_no_duplicate_nodeIds` at concrete inputs: a sequence
admitting peers 1 and 2 and a duplicate of 1 ends with distinct keys; the
duplicate addpeer is rejected with reason 10; a fresh addpeer inserts. -/
theorem run_no_duplicate_nodeIds_witness :
    keysNodup (runEvents [] [.addpeer ⟨1, 5⟩, .addpeer ⟨2, 5⟩, .addpeer ⟨3, 6⟩]) ∧
    runStep [(5, ⟨1, 5⟩)] (.addpeer ⟨2, 5⟩)
      = ([(5, ⟨1, 5⟩)], [.disconnect ⟨2, 5⟩ discAlreadyConnected]) ∧
    runStep [(5, ⟨1, 5⟩)] (.addpeer ⟨3, 6⟩)
      = (insertPeer [(5, ⟨1, 5⟩)] 6 ⟨3, 6⟩, []) :=
  ⟨run_no_duplicate_nodeIds.1 _,
   run_no_duplicate_nodeIds.2.1 [(5, ⟨1, 5⟩)] ⟨2, 5⟩ ⟨1, 5⟩ rfl,
   run_no_duplicate_nodeIds.2.2.1 [(5, ⟨1, 5⟩)] ⟨3, 6⟩ rfl⟩

/-- C8: a delpeer event removes the map entry exactly when the instance
currently mapped under that NodeID is the event's instance; a stale delpeer
(different instance, or no entry) leaves the map unchanged and issues no
action. After a matching removal the NodeID is no longer mapped. -/
theorem run_delpeer_instance_guard (peers : PeerMap) (pd : PeerH) :
    (lookupPeer peers pd.nodeId = some pd →
        runStep peers (.delpeer pd) = (deletePeer peers pd.nodeId, []) ∧
        lookupPeer (deletePeer peers pd.nodeId) pd.nodeId = none) ∧
    (lookupPeer peers pd.nodeId ≠ some pd →
        runStep peers (.delpeer pd) = (peers, [])) := by
  constructor
  · intro hl
    refine ⟨by simp [runStep, hl], ?_⟩
    rw [lookupPeer_eq_none_iff]
    intro hmem
    simp only [deletePeer, List.mem_map] at hmem
    obtain ⟨e, he, hk⟩ := hmem
    rw [List.mem_filter] at he
    have hne := he.2
    simp only [bne_iff_ne, ne_eq] at hne
    exact hne hk
  · intro hl
    cases hc : lookupPeer peers pd.nodeId with
    | none => simp [runStep, hc]
    | some curPeer =>
      have hne : curPeer ≠ pd := fun h => hl (h ▸ hc)
      simp [runStep, hc, hne]

/-- Witness for `run_delpeer_instance_guard`: removing the mapped instance
empties the map; a stale delpeer carrying a replaced instance (pid 2 in a
map holding pid 1 under the same NodeID) changes nothing. -/
theorem run_delpeer_instance_guard_witness :
    (runStep [(5, ⟨1, 5⟩)] (.delpeer ⟨1, 5⟩) = (deletePeer [(5, ⟨1, 5⟩)] 5, []) ∧
     lookupPeer (deletePeer [(5, (⟨1, 5⟩ : PeerH))] 5) 5 = none) ∧
    runStep [(5, ⟨1, 5⟩)] (.delpeer ⟨2, 5⟩) = ([(5, ⟨1, 5⟩)], []) :=
  ⟨(run_delpeer_instance_guard [(5, ⟨1, 5⟩)] ⟨1, 5⟩).1 rfl,
   (run_delpeer_instance_guard [(5, ⟨1, 5⟩)] ⟨2, 5⟩).2 (by decide)⟩

/-! ## Shutdown drain (server.go 160-169) -/

/-- The disconnects issued after the loop leaves `running`: one
`Disconnect(discServerQuit)` per peer in the map (server.go 162-164). -/
def shutdownDisconnects (peers : PeerMap) : List SrvAction :=
  peers.map (fun e => .disconnect e.2 discServerQuit)

/-- The drain loop `for len(peers) > 0 { p := <-srv.delpeer; delete(...) }`
(server.go 166-169), fed the finite sequence of peers that will ever arrive
on `srv.delpeer`. `none` models the loop blocked forever on the channel
with a nonempty map; `some m` is the map in hand when the loop exits. -/
def drainLoop (peers : PeerMap) (incoming : List PeerH) : Option PeerMap :=
  match incoming with
  | [] => if peers = [] then some peers else none
  | p :: rest =>
    if peers = [] then some peers
    else drainLoop (deletePeer peers p.nodeId) rest

theorem drainLoop_some_empty (incoming : List PeerH) :
    ∀ (peers m : PeerMap), drainLoop peers incoming = some m → m = [] := by
  induction incoming with
  | nil =>
    intro peers m h
    by_cases hp : peers = []
    · simp only [drainLoop, if_pos hp, Option.some.injEq] at h
      rw [← h, hp]
    · simp [drainLoop, hp] at h
  | cons p rest ih =>
    intro peers m h
    by_cases hp : peers = []
    · simp only [drainLoop, if_pos hp, Option.some.injEq] at h
      rw [← h, hp]
    · simp only [drainLoop, if_neg hp] at h
      exact ih _ _ h

/-- C6: on shutdown the loop issues `Disconnect(discServerQuit)` (reason 11)
to every peer currently in the map, and the subsequent drain loop returns
only once the map is empty: whenever `drainLoop` terminates, the map it
exits with is empty. -/
theorem shutdown_drains_until_empty :
    (∀ (peers : PeerMap), ∀ e ∈ peers,
        SrvAction.disconnect e.2 discServerQuit ∈ shutdownDisconnects peers) ∧
    (∀ (peers : PeerMap) (incoming : List PeerH) (m : PeerMap),
        drainLoop peers incoming = some m → m = []) ∧
    discServerQuit = 11 := by
  refine ⟨?_, fun peers incoming m h => drainLoop_some_empty incoming peers m h, rfl⟩

  intro peers e he
  exact List.mem_map_of_mem _ he

/-- Witness for `shutdown_drains_until_empty`: a two-peer map gets both
disconnects, and draining it against the matching removal events exits with
the empty map. -/
theorem shutdown_drains_until_empty_witness :
    SrvAction.disconnect ⟨1, 5⟩ discServerQuit
        ∈ shutdownDisconnects [(5, ⟨1, 5⟩), (6, ⟨2, 6⟩)] ∧
    ([] : PeerMap) = [] :=
  ⟨shutdown_drains_until_empty.1 [(5, ⟨1, 5⟩), (6, ⟨2, 6⟩)] (5, ⟨1, 5⟩) (by decide),
   shutdown_drains_until_empty.2.1 [(5, ⟨1, 5⟩), (6, ⟨2, 6⟩)] [⟨1, 5⟩, ⟨2, 6⟩] [] rfl⟩

/-! ## Peer.Disconnect against Peer.run's shutdown path (peer.go 78-81, 217-222)

Disconnect is `select { case p.disc <- reason: case <-p.closed: }` over the
unbuffered channel `p.disc` and the signal channel `p.closed`. Per the Go
language semantics of select: a case is ready when its communication can
proceed; receiving from a closed channel proceeds immediately; a send on a
closed channel also proceeds — and panics; when several cases are ready one
is chosen nondeterministically; with none ready, select blocks. The state
of the two channels is all Disconnect observes. -/

/-- Channel state seen by one Disconnect call: whether run's `close(p.disc)`
(line 80) and `close(p.closed)` (line 78) have executed, and whether run's
select (line 72) is currently blocked ready to receive from `p.disc`. -/
structure PeerChanState where
  discClosed : Bool
  closedClosed : Bool
  receiverReady : Bool
  deriving Repr, DecidableEq

inductive DiscOutcome
  | delivered
  | dropped
  | panicked
  | blocked
  deriving Repr, DecidableEq

/-- The outcomes the select in Disconnect can take in a given channel state:
the send case delivers when run's select is receiving and panics when
`p.disc` is closed; the receive case drops the request silently when
`p.closed` is closed; with no case ready, Disconnect blocks. -/
def disconnectOutcomes (s : PeerChanState) : List DiscOutcome :=
  let ready :=
    (if s.discClosed then [DiscOutcome.panicked]
     else if s.receiverReady then [DiscOutcome.delivered] else []) ++
    (if s.closedClosed then [DiscOutcome.dropped] else [])
  if ready.isEmpty then [DiscOutcome.blocked] else ready

/-- Channel states along Peer.run's shutdown path once the select loop has
exited (so no receiver on `p.disc` remains): before line 78, between
`close(p.closed)` and `close(p.disc)`, and after line 80. -/
def runShutdownStates : List PeerChanState :=
  [⟨false, false, false⟩, ⟨false, true, false⟩, ⟨true, true, false⟩]

/-- C7: refuted on the code — in the reachable state after Peer.run has
executed both `close(p.closed)` and `close(p.disc)`, the peer has closed
(closed-event signaled), yet Disconnect's select may nondeterministically
pick the send case on the closed `p.disc` channel and panic instead of
dropping the request silently: the drop is one possible outcome, not the
outcome of every interleaving. -/
theorem disconnect_can_panic_after_close :
    (⟨true, true, false⟩ : PeerChanState) ∈ runShutdownStates ∧
    (⟨true, true, false⟩ : PeerChanState).closedClosed = true ∧
    DiscOutcome.panicked ∈ disconnectOutcomes ⟨true, true, false⟩ ∧
    DiscOutcome.dropped ∈ disconnectOutcomes ⟨true, true, false⟩ := by
  decide

/-! ## Peer.run terminal events and sendCtlMsg (peer.go 43-87, 156-166)

Peer.run's wait loop selects on its local `writeErr` and `readErr` channels
and on `p.disc`. The values that can arrive are modelled as a stream of
`RunEvent`s; run exits the loop at the first event that is terminal (a
non-nil write error, any read error, or a disconnect request), and a nil
value on `writeErr` is consumed and the loop continues. -/

inductive RunEvent
  | writeErrMsg (failed : Bool)
  | readErrMsg
  | discMsg
  deriving Repr, DecidableEq

/-- The wait loop of Peer.run (peer.go 59-76): returns the event that made it
break out of the loop, or `none` when the stream is exhausted with run
still blocked in the select. -/
def runLoop : List RunEvent → Option RunEvent
  | [] => none
  | .writeErrMsg false :: rest => runLoop rest
  | .writeErrMsg true :: _ => some (.writeErrMsg true)
  | .readErrMsg :: _ => some .readErrMsg
  | .discMsg :: _ => some .discMsg

/-- Peer.sendCtlMsg (peer.go 156-166) over the oracle result of its
`p.sendRawMsg(hsMsg)` call (`none` = the write failed): the code discards
that result and returns nil unconditionally, and nothing in peer.go ever
sends on run's `writeErr` channel. First component: the error value
sendCtlMsg returns to its caller (the pinger); second: the events it
contributes to run's wait loop. -/
def sendCtlMsg (_writeResult : Option Unit) : Option Unit × List RunEvent :=
  (some (), [])

/-- C10: refuted on the code for the writer-error event — run's wait loop
does break on a read error or a disconnect request, and would break on a
non-nil value from `writeErr`, but no write path ever posts one: sendCtlMsg
(the pinger's write, peer.go 164) discards the result of sendRawMsg and
returns success, contributing no event, so a failed ping write leaves
run's loop with nothing to receive (`runLoop` of the contributed events is
`none`) and the peer is not torn down. -/
theorem ping_write_failure_not_terminal :
    sendCtlMsg none = (some (), []) ∧
    runLoop (sendCtlMsg none).2 = none ∧
    (∀ rest : List RunEvent, runLoop (.readErrMsg :: rest) = some .readErrMsg) ∧
    (∀ rest : List RunEvent, runLoop (.discMsg :: rest) = some .discMsg) ∧
    (∀ rest : List RunEvent,
        runLoop (.writeErrMsg true :: rest) = some (.writeErrMsg true)) :=
  ⟨rfl, rfl, fun _ => rfl, fun _ => rfl, fun _ => rfl⟩

end P2P
